import Mathlib

/-!
Shallow embedding of gotee.go (imarsman/tee): a tee-like program that
replicates standard input to a set of file sinks and optionally echoes it to
standard output.  Bytes are modelled as natural numbers, file and console
contents as byte lists, and the success of each I/O call as a Boolean
oracle supplied to the model.
-/

/-- A byte, as a natural number (values 0..255 in practice). -/
abbrev Byte := Nat

/-- State of one `fileWriter` (gotee.go:52-56): the bytes already flushed to
the underlying file during this run, the bytes sitting in the bufio buffer,
the `active` flag, and whether `close` has been called on it. -/
structure fileWriter where
  written : List Byte
  buf : List Byte
  active : Bool
  closed : Bool
deriving DecidableEq

/-- `fileWriter.write` (gotee.go:99-109): `s.writer.Write(bytes)` followed by
`s.writer.Flush()`.  `ok` is the I/O oracle for this call: on success the
buffered bytes plus the new bytes reach the file and the buffer empties; on
failure the error is returned to the caller (which bytes reached the file on
a failed call is not specified by any claim; the model leaves the state
unchanged). -/
def fileWriter.write (s : fileWriter) (bytes : List Byte) (ok : Bool) : fileWriter × Bool :=
  if ok then ({ s with written := s.written ++ s.buf ++ bytes, buf := [] }, true)
  else (s, false)

/-- `fileWriter.close` (gotee.go:112-117): flush the buffer (a flush error is
logged, not raised) and release the file handle. -/
def fileWriter.close (s : fileWriter) : fileWriter :=
  { s with written := s.written ++ s.buf, buf := [], closed := true }

/-- The body of one iteration of the per-sink fan-out loop for an active sink
(gotee.go:346-351): call `write`, and on error set `active = false`.  The
extra `fileWriter.writer.Flush()` on line 348 discards its error; the buffer
is empty at that point after every successful write, and a failed write
leaves it as it was (initially empty), so it is a no-op and not modelled
separately. -/
def dispatchStep (chunk : List Byte) (ok : Bool) (fw : fileWriter) : fileWriter :=
  let r := fw.write chunk ok
  if r.2 then r.1 else { r.1 with active := false }

/-- The fan-out loop over `fileContainer.fileWriters` (gotee.go:344-353),
from index `i` on: each active sink gets a `write` call (its index is
recorded as a write event, in call order); inactive sinks are skipped.
`oracle j` tells whether sink j's write call succeeds for this chunk.
Returns the updated sink list and the ordered list of write events. -/
def dispatchAux (chunk : List Byte) (oracle : Nat → Bool) :
    Nat → List fileWriter → List fileWriter × List Nat
  | _, [] => ([], [])
  | i, fw :: rest =>
    let p := dispatchAux chunk oracle (i + 1) rest
    if fw.active then (dispatchStep chunk (oracle i) fw :: p.1, i :: p.2)
    else (fw :: p.1, p.2)

/-- Sink states after fanning one chunk out to the whole sink list. -/
def dispatchChunk (chunk : List Byte) (oracle : Nat → Bool)
    (sinks : List fileWriter) : List fileWriter :=
  (dispatchAux chunk oracle 0 sinks).1

/-- The ordered write events (sink indices receiving a `write` call) of one
fan-out. -/
def dispatchEvents (chunk : List Byte) (oracle : Nat → Bool)
    (sinks : List fileWriter) : List Nat :=
  (dispatchAux chunk oracle 0 sinks).2

/-- The indices of the active sinks, in increasing (insertion) order,
starting the count at `i`.  Used to characterise `dispatchEvents`. -/
def activeIndicesAux : Nat → List fileWriter → List Nat
  | _, [] => []
  | i, fw :: rest =>
    if fw.active then i :: activeIndicesAux (i + 1) rest
    else activeIndicesAux (i + 1) rest

/-- Mutable state of the chunked-mode main loop: the sink list, the bytes
written to standard output so far, and the chunk counter `count`. -/
structure RunState where
  sinks : List fileWriter
  stdout : List Byte
  count : Nat
deriving DecidableEq

/-- The chunked-mode read loop (gotee.go:334-360) over the list of successful
reads: each chunk is fanned out to the sinks, then echoed to standard output
when passthrough is enabled (`readWriter.Write` plus `Flush`, so it lands on
the console each iteration), and `count` is incremented.  `oracle i j` tells
whether sink j's write succeeds on chunk i.  The loop ends at the read that
returns `n == 0` with `io.EOF`. -/
def chunkLoop (pass : Bool) (oracle : Nat → Nat → Bool) :
    List (List Byte) → RunState → RunState
  | [], st => st
  | chunk :: rest, st =>
    chunkLoop pass oracle rest
      ⟨dispatchChunk chunk (oracle st.count) st.sinks,
       if pass then st.stdout ++ chunk else st.stdout,
       st.count + 1⟩

/-- One event of the sink-building loop (gotee.go:316-325): a path is either
rejected with a diagnostic for looking like a glob, opened successfully, or
fails to open (diagnostic, no sink). -/
inductive SinkEvent where
  | globDiagnostic (p : List Byte)
  | opened (p : List Byte)
  | openFailed (p : List Byte)
deriving DecidableEq

/-- `strings.Contains(args[i], "*")` (gotee.go:317): the glob screen tests
only for the `*` character (byte 42). -/
def containsStar (p : List Byte) : Bool := p.contains 42

/-- The sink-building loop over the positional arguments (gotee.go:316-325):
paths containing `*` are skipped with a diagnostic before any open attempt;
otherwise `addFileWriter` attempts the open, succeeding when the `opens`
oracle says so. -/
def sinkLoopEvents (opens : List Byte → Bool) : List (List Byte) → List SinkEvent
  | [] => []
  | p :: rest =>
    (if containsStar p then SinkEvent.globDiagnostic p
     else if opens p then SinkEvent.opened p else SinkEvent.openFailed p)
    :: sinkLoopEvents opens rest

/-- The paths that actually became sinks, in insertion order: exactly the
successful opens of the sink-building loop. -/
def buildSinks (args : List (List Byte)) (opens : List Byte → Bool) : List (List Byte) :=
  (sinkLoopEvents opens args).filterMap
    (fun e => match e with | SinkEvent.opened p => some p | _ => none)

/-- The freshly opened `fileWriter`s (gotee.go:86, 93): each starts active,
with an empty buffer, nothing written yet in this run, and not closed. -/
def initSinks (args : List (List Byte)) (opens : List Byte → Bool) : List fileWriter :=
  (buildSinks args opens).map (fun _ => ⟨[], [], true, false⟩)

/-- The debug line `fmt.Println("args", args)` (gotee.go:219): `args ` then
the Go rendering of the string slice (`[` elements separated by spaces `]`)
and a newline, written to standard output on every run. -/
def printlnArgs (args : List (List Byte)) : List Byte :=
  [97, 114, 103, 115, 32, 91] ++ List.intercalate [32] args ++ [93, 10]

/-- Outcome of one chunked-mode run: the process exit status, the final loop
state, and the number of `Read` calls issued on standard input. -/
structure MainResult where
  exitCode : Nat
  state : RunState
  readsIssued : Nat
deriving DecidableEq

/-- The chunked-mode (non-terminal stdin) path of `main` (gotee.go:194-360):
print the debug args line; on `-h` print help and exit 0 (`usage` is the
`flag.PrintDefaults` output that printHelp sends to standard output,
environment-dependent and passed as a parameter); with no positional
arguments print a diagnostic plus help and exit 0 via `printHelp`
(gotee.go:226-230, 183-192); build the sinks, and if none opened exit 1
without reading (gotee.go:326-329); otherwise run the read loop over the
successful reads (`chunks`) and return from main (exit status 0), having
issued one `Read` per chunk plus the final read that reported EOF.  The
commented-out block at gotee.go:362-366 means no flush or close follows the
loop. -/
def mainChunked (usage : List Byte) (helpFlag suppress : Bool)
    (args : List (List Byte)) (opens : List Byte → Bool)
    (oracle : Nat → Nat → Bool) (chunks : List (List Byte)) : MainResult :=
  if helpFlag then ⟨0, ⟨[], printlnArgs args ++ usage, 0⟩, 0⟩
  else if args.length = 0 then ⟨0, ⟨[], printlnArgs args ++ usage, 0⟩, 0⟩
  else if (initSinks args opens).length = 0 then ⟨1, ⟨[], printlnArgs args, 0⟩, 0⟩
  else
    ⟨0, chunkLoop (!suppress) oracle chunks ⟨initSinks args opens, printlnArgs args, 0⟩,
     chunks.length + 1⟩

/-- `bufio.ReadSlice` up to the first newline, modelled on the remaining
input: the bytes before the first byte 10, and the rest of the input after
that newline when one was found. -/
def splitLine : List Byte → List Byte × Option (List Byte)
  | [] => ([], none)
  | b :: rest =>
    if b = 10 then ([], some rest)
    else
      let p := splitLine rest
      (b :: p.1, p.2)

/-- `bufio.ReadLine` drops a `\r` that immediately preceded the terminating
newline (never a `\r` of an unterminated final line). -/
def dropTrailCR (l : List Byte) : List Byte :=
  if l.getLast? = some 13 then l.dropLast else l

/-- Result of one `readWriter.ReadLine()` call (gotee.go:277).  `truncated`
mirrors the `isPrefix` flag; lines longer than bufio's internal buffer are
not modelled, so it is always false here (it is diagnostic only, used for a
"line too long" message).  `errR` stands for a non-EOF read error. -/
inductive ReadLineResult where
  | ok (line : List Byte) (truncated : Bool)
  | eofR
  | errR
deriving DecidableEq

/-- `bufio.ReadLine` on the remaining input: at end of input it reports EOF
with an empty line; a terminated line is returned without its `\n` (and
without a preceding `\r`); an unterminated final line is returned as-is with
no error.  Also returns the input remaining after the call. -/
def readLine : List Byte → ReadLineResult × List Byte
  | [] => (ReadLineResult.eofR, [])
  | b :: rest =>
    match splitLine (b :: rest) with
    | (l, some r) => (ReadLineResult.ok (dropTrailCR l) false, r)
    | (l, none) => (ReadLineResult.ok l false, [])

/-- What one iteration of the line-mode loop does: either break out of the
loop, or dispatch a chunk to every active sink (after possibly printing
something to standard output) and continue with the remaining input. -/
inductive LineStep where
  | halt
  | dispatchL (chunk : List Byte) (stdoutExtra : List Byte) (rest : List Byte)
deriving DecidableEq

/-- One iteration of the line-mode (interactive stdin) loop
(gotee.go:277-311): a non-EOF read error breaks the loop; on EOF the loop
does NOT break — `fmt.Println(err)` prints `EOF` plus a newline to standard
output and the dispatch still runs with the nil line, writing
`fmt.Sprintf("%s\n", string(input))`, i.e. a bare newline byte, to every
active sink; on a read line the dispatched chunk is the line with one
newline byte appended. -/
def lineIter (input : List Byte) : LineStep :=
  match readLine input with
  | (ReadLineResult.errR, _) => LineStep.halt
  | (ReadLineResult.eofR, rest) => LineStep.dispatchL [10] [69, 79, 70, 10] rest
  | (ReadLineResult.ok l _, rest) => LineStep.dispatchL (l ++ [10]) [] rest

/-- How the terminal-mode (interactive stdin) path of `main` starts
(gotee.go:221-277): on `-h` or with zero positional arguments `printHelp`
exits the process with status 0 before any read; otherwise the sink-building
loop (gotee.go:260-269) runs and the line loop is entered directly — this
path has no check of how many sinks opened (the `len == 0` guard at
gotee.go:326-329 sits after the line loop and is only reached in
non-terminal mode or after a non-EOF read error breaks the loop). -/
inductive LineModeStart where
  | exitHelp
  | enterLoop (sinks : List fileWriter)
deriving DecidableEq

/-- The terminal-mode prefix of `main` up to the top of the line loop. -/
def mainLineStart (helpFlag : Bool) (args : List (List Byte))
    (opens : List Byte → Bool) : LineModeStart :=
  if helpFlag then LineModeStart.exitHelp
  else if args.length = 0 then LineModeStart.exitHelp
  else LineModeStart.enterLoop (initSinks args opens)

/-- The first thing the terminal-mode path does with standard input: `none`
when the process exited (with status 0) before any read, otherwise the line
loop's first iteration — whose opening statement is a `ReadLine` call
(gotee.go:277), issued whether or not any sink opened. -/
def mainLineFirstRead (helpFlag : Bool) (args : List (List Byte))
    (opens : List Byte → Bool) (input : List Byte) : Option LineStep :=
  match mainLineStart helpFlag args opens with
  | LineModeStart.exitHelp => none
  | LineModeStart.enterLoop _ => some (lineIter input)

/-- The file resource `newFileWriter` (gotee.go:59-96) hands to the run: the
on-disk content right after the open sequence, whether the descriptor is in
`O_APPEND` mode, and whether a new file was created for a missing path. -/
structure openedFile where
  content : List Byte
  atEnd : Bool
  created : Bool
deriving DecidableEq

/-- `newFileWriter`'s open sequence (gotee.go:59-96) on a path whose prior
content is `existing` (`none` when the path does not exist): `mode` starts
as `O_APPEND`, becomes `O_CREATE` when append is off; when `os.Stat` fails
the mode is forced to `O_CREATE` and `os.Create` makes a new empty file;
when the path exists and append is off, `os.Create` truncates it to empty;
finally `os.OpenFile(path, mode|os.O_WRONLY, 0644)` opens it, positioned at
the end exactly when the effective mode kept `O_APPEND`. -/
def newFileWriterFile : Option (List Byte) → Bool → openedFile
  | none, _ => ⟨[], false, true⟩
  | some x, app => if app then ⟨x, true, false⟩ else ⟨[], false, false⟩

/-- Final on-disk content after the run sequentially writes `ys` through the
opened descriptor: appended after the existing content in `O_APPEND` mode,
otherwise written from offset 0 over the content left by the open. -/
def writeOut (f : openedFile) (ys : List Byte) : List Byte :=
  if f.atEnd then f.content ++ ys
  else ys ++ f.content.drop ys.length

/-- Process state seen by the interrupt handler: the sink collection, the
unflushed bytes sitting in `readWriter.Writer`'s buffer, and the bytes
already flushed to the console. -/
structure ProcState where
  sinks : List fileWriter
  outBuf : List Byte
  outDone : List Byte
deriving DecidableEq

/-- The interrupt-signal handler (gotee.go:236-251): print one diagnostic
(to an `os.Stderr` temporarily set to nil, so it is swallowed), sleep 100ms
to let an in-flight write finish, `readWriter.Writer.Flush()` the
passthrough, call `close` on every `fileWriter` in insertion order, then
`os.Exit(0)`.  Returns the resulting state and the exit status. -/
def interruptHandler (st : ProcState) : ProcState × Nat :=
  (⟨st.sinks.map fileWriter.close, [], st.outDone ++ st.outBuf⟩, 0)

/-- Sinks the normal (no-interrupt) epilogue leaves behind: not closed, but
with an empty buffer (every write flushed).  Used to state what holds of the
sink list when `main` returns after EOF. -/
def flushedNotClosed (s : fileWriter) : Bool := !s.closed && s.buf.isEmpty

/-- The glob metacharacters named by the specification: `*` (42), `?` (63)
and `[` (91). -/
def globMeta (b : Byte) : Bool := b == 42 || b == 63 || b == 91

/-- Pointwise description of a fan-out: sink k of the result is sink k of
the input, put through `dispatchStep` when it was active and untouched when
it was not. -/
theorem dispatchAux_fst_getElem (chunk : List Byte) (oracle : Nat → Bool) :
    ∀ (l : List fileWriter) (i k : Nat),
      (dispatchAux chunk oracle i l).1[k]?
        = l[k]?.map
            (fun fw => if fw.active then dispatchStep chunk (oracle (i + k)) fw else fw) := by
  intro l
  induction l with
  | nil => intro i k; simp [dispatchAux]
  | cons fw rest ih =>
    intro i k
    cases k with
    | zero =>
      by_cases h : fw.active <;> simp [dispatchAux, h]
    | succ k =>
      have harith : i + 1 + k = i + (k + 1) := by omega
      by_cases h : fw.active <;>
        simp [dispatchAux, h, ih (i + 1) k, harith]

/-- The write events of a fan-out are exactly the indices of the active
sinks, in increasing order. -/
theorem dispatchAux_snd (chunk : List Byte) (oracle : Nat → Bool) :
    ∀ (l : List fileWriter) (i : Nat),
      (dispatchAux chunk oracle i l).2 = activeIndicesAux i l := by
  intro l
  induction l with
  | nil => intro i; rfl
  | cons fw rest ih =>
    intro i
    by_cases h : fw.active <;> simp [dispatchAux, activeIndicesAux, h, ih (i + 1)]

/-- Every index listed from `i` on is at least `i`. -/
theorem activeIndicesAux_le :
    ∀ (l : List fileWriter) (i x : Nat), x ∈ activeIndicesAux i l → i ≤ x := by
  intro l
  induction l with
  | nil => intro i x hx; simp [activeIndicesAux] at hx
  | cons fw rest ih =>
    intro i x hx
    by_cases h : fw.active
    · simp only [activeIndicesAux, h, if_true, List.mem_cons] at hx
      cases hx with
      | inl h0 => omega
      | inr h1 => have := ih (i + 1) x h1; omega
    · simp only [activeIndicesAux, h, if_false] at hx
      have := ih (i + 1) x hx; omega

/-- The active indices are listed in strictly increasing order. -/
theorem activeIndicesAux_pairwise :
    ∀ (l : List fileWriter) (i : Nat), (activeIndicesAux i l).Pairwise (· < ·) := by
  intro l
  induction l with
  | nil => intro i; simp [activeIndicesAux]
  | cons fw rest ih =>
    intro i
    by_cases h : fw.active
    · simp only [activeIndicesAux, h, if_true, List.pairwise_cons]
      refine ⟨fun x hx => ?_, ih (i + 1)⟩
      have := activeIndicesAux_le rest (i + 1) x hx; omega
    · simp only [activeIndicesAux, h, if_false]
      exact ih (i + 1)

/-- The read loop consumes every chunk: one counter increment per read. -/
theorem chunkLoop_count (pass : Bool) (oracle : Nat → Nat → Bool) :
    ∀ (chunks : List (List Byte)) (st : RunState),
      (chunkLoop pass oracle chunks st).count = st.count + chunks.length := by
  intro chunks
  induction chunks with
  | nil => intro st; simp [chunkLoop]
  | cons c rest ih =>
    intro st
    rw [chunkLoop, ih]
    simp; omega

/-- A sink that is active with an empty buffer and whose writes all succeed
accumulates exactly the concatenation of the dispatched chunks, keeping an
empty buffer, staying active, and staying unclosed. -/
theorem chunkLoop_sink_ok (k : Nat) :
    ∀ (chunks : List (List Byte)) (pass : Bool) (oracle : Nat → Nat → Bool)
      (st : RunState) (w : List Byte),
      (∀ i, oracle i k = true) →
      st.sinks[k]? = some ⟨w, [], true, false⟩ →
      ((chunkLoop pass oracle chunks st).sinks)[k]?
        = some ⟨w ++ chunks.flatten, [], true, false⟩ := by
  intro chunks
  induction chunks with
  | nil => intro pass oracle st w hok hs; simpa [chunkLoop] using hs
  | cons c rest ih =>
    intro pass oracle st w hok hs
    have hd : (dispatchChunk c (oracle st.count) st.sinks)[k]?
        = some ⟨w ++ c, [], true, false⟩ := by
      rw [dispatchChunk, dispatchAux_fst_getElem, hs]
      simp [dispatchStep, fileWriter.write, hok st.count]
    rw [chunkLoop]
    have := ih pass oracle
      ⟨dispatchChunk c (oracle st.count) st.sinks,
       if pass then st.stdout ++ c else st.stdout, st.count + 1⟩ (w ++ c) hok hd
    simpa [List.append_assoc] using this

/-- An inactive sink is never touched again: its state is carried unchanged
through any further run of the loop. -/
theorem chunkLoop_sink_inactive (k : Nat) (fw : fileWriter) (hfw : fw.active = false) :
    ∀ (chunks : List (List Byte)) (pass : Bool) (oracle : Nat → Nat → Bool)
      (st : RunState),
      st.sinks[k]? = some fw →
      ((chunkLoop pass oracle chunks st).sinks)[k]? = some fw := by
  intro chunks
  induction chunks with
  | nil => intro pass oracle st hs; simpa [chunkLoop] using hs
  | cons c rest ih =>
    intro pass oracle st hs
    have hd : (dispatchChunk c (oracle st.count) st.sinks)[k]? = some fw := by
      rw [dispatchChunk, dispatchAux_fst_getElem, hs]
      simp [hfw]
    rw [chunkLoop]
    exact ih pass oracle
      ⟨dispatchChunk c (oracle st.count) st.sinks,
       if pass then st.stdout ++ c else st.stdout, st.count + 1⟩ hd

/-- `dispatchStep` never closes a sink and always leaves its buffer empty
when the buffer was empty. -/
theorem dispatchStep_flushedNotClosed (chunk : List Byte) (ok : Bool) (fw : fileWriter)
    (h : flushedNotClosed fw = true) : flushedNotClosed (dispatchStep chunk ok fw) = true := by
  cases ok <;> simp_all [dispatchStep, fileWriter.write, flushedNotClosed]

/-- A fan-out preserves `flushedNotClosed` across the whole sink list. -/
theorem dispatchAux_fst_all (chunk : List Byte) (oracle : Nat → Bool) :
    ∀ (l : List fileWriter) (i : Nat), l.all flushedNotClosed = true →
      ((dispatchAux chunk oracle i l).1.all flushedNotClosed) = true := by
  intro l
  induction l with
  | nil => intro i _; simp [dispatchAux]
  | cons fw rest ih =>
    intro i hall
    rw [List.all_cons, Bool.and_eq_true] at hall
    by_cases h : fw.active <;>
      simp [dispatchAux, h, List.all_cons, ih (i + 1) hall.2,
        dispatchStep_flushedNotClosed chunk (oracle i) fw hall.1, hall.1]

/-- The whole read loop preserves `flushedNotClosed` across the sink list. -/
theorem chunkLoop_all :
    ∀ (chunks : List (List Byte)) (pass : Bool) (oracle : Nat → Nat → Bool)
      (st : RunState), st.sinks.all flushedNotClosed = true →
      ((chunkLoop pass oracle chunks st).sinks.all flushedNotClosed) = true := by
  intro chunks
  induction chunks with
  | nil => intro pass oracle st h; simpa [chunkLoop] using h
  | cons c rest ih =>
    intro pass oracle st h
    rw [chunkLoop]
    exact ih pass oracle _ (dispatchAux_fst_all c (oracle st.count) st.sinks 0 h)

/-- Freshly opened sinks are unclosed with empty buffers. -/
theorem initSinks_all (args : List (List Byte)) (opens : List Byte → Bool) :
    ((initSinks args opens).all flushedNotClosed) = true := by
  simp only [initSinks, List.all_eq_true]
  intro x hx
  obtain ⟨y, _, rfl⟩ := List.mem_map.mp hx
  rfl

/-- `splitLine` returns the whole input, with no remainder, when the input
contains no newline byte. -/
theorem splitLine_no_nl : ∀ (l : List Byte), (10 : Byte) ∉ l → splitLine l = (l, none) := by
  intro l
  induction l with
  | nil => intro _; rfl
  | cons b rest ih =>
    intro h
    have hb : ¬ b = 10 := fun hb => h (by simp [hb])
    have hr : (10 : Byte) ∉ rest := fun hm => h (List.mem_cons_of_mem _ hm)
    simp [splitLine, hb, ih hr]

/-- C1: in chunked (non-terminal) mode, a sink that opened successfully and
whose writes all succeed receives over the whole run exactly the input byte
sequence (the concatenation of the chunks read), with no reordering,
duplication, or loss, and its buffer is empty — every write flushed — after
each dispatched chunk, i.e. before the next read. -/
theorem C1_chunked_fidelity
    (usage : List Byte) (suppress : Bool) (args : List (List Byte))
    (opens : List Byte → Bool) (oracle : Nat → Nat → Bool)
    (chunks : List (List Byte)) (k : Nat)
    (hargs : args ≠ [])
    (hk : k < (buildSinks args opens).length)
    (hok : ∀ i, oracle i k = true) :
    (mainChunked usage false suppress args opens oracle chunks).state.sinks[k]?
      = some ⟨chunks.flatten, [], true, false⟩
    ∧ ∀ m, ((chunkLoop (!suppress) oracle (chunks.take m)
          ⟨initSinks args opens, printlnArgs args, 0⟩).sinks)[k]?
        = some ⟨(chunks.take m).flatten, [], true, false⟩ := by
  have hinit : (initSinks args opens)[k]? = some ⟨[], [], true, false⟩ := by
    rw [initSinks, List.getElem?_map, List.getElem?_eq_getElem hk]
    rfl
  have hlen : ¬ (initSinks args opens).length = 0 := by
    rw [initSinks, List.length_map]; omega
  have hlenA : ¬ args.length = 0 := by
    cases args with
    | nil => exact absurd rfl hargs
    | cons _ _ => simp
  constructor
  · have hrun : mainChunked usage false suppress args opens oracle chunks
        = ⟨0, chunkLoop (!suppress) oracle chunks
            ⟨initSinks args opens, printlnArgs args, 0⟩, chunks.length + 1⟩ := by
      rw [mainChunked]; simp [hlenA, hlen]
    rw [hrun]
    simpa using chunkLoop_sink_ok k chunks (!suppress) oracle
      ⟨initSinks args opens, printlnArgs args, 0⟩ [] hok hinit
  · intro m
    simpa using chunkLoop_sink_ok k (chunks.take m) (!suppress) oracle
      ⟨initSinks args opens, printlnArgs args, 0⟩ [] hok hinit

/-- Witness for C1: one sink opened on path `a`, two successful reads `[1]`
then `[2, 3]`: the sink ends the run holding `[1, 2, 3]` with an empty
buffer, still active and unclosed. -/
theorem C1_chunked_fidelity_witness :
    (mainChunked [] false false [[97]] (fun _ => true) (fun _ _ => true)
      [[1], [2, 3]]).state.sinks[0]?
      = some ⟨[1, 2, 3], [], true, false⟩ :=
  (C1_chunked_fidelity [] false [[97]] (fun _ => true) (fun _ _ => true)
    [[1], [2, 3]] 0 (by decide) (by decide) (fun _ => rfl)).1

/-- C2 fails on the code: `fmt.Println("args", args)` (gotee.go:219) writes
the debug line `args [...]` to standard output on every run, so even with
passthrough suppressed (`-S`) standard output is not empty and is never
exactly the passthrough copy of the input.  Evaluated here on the run with
one path `a`, `-S` given, and one chunk read. -/
theorem C2_suppressed_stdout_nonempty :
    (mainChunked [] false true [[97]] (fun _ => true) (fun _ _ => true)
      [[5, 6]]).state.stdout
      = [97, 114, 103, 115, 32, 91, 97, 93, 10]
    ∧ ¬ (mainChunked [] false true [[97]] (fun _ => true) (fun _ _ => true)
      [[5, 6]]).state.stdout = [] := by
  decide

/-- Counterexamples to C3 as stated: first, with zero output paths supplied
the process prints the usage text via `printHelp` and exits with status 0
(gotee.go:226-230, 191), not with the failure status 1 the claim requires;
second, in terminal (line) mode with one path supplied whose open fails —
zero sinks opened — the process does not exit at all: it enters the line
loop and issues a read (the first iteration on input `h\n` is shown),
because that path has no no-sink guard, so it neither refrains from reading
nor exits with status 1. -/
theorem C3_counterexamples :
    (mainChunked [] false false [] (fun _ => false) (fun _ _ => true) []).exitCode = 0
    ∧ ¬ (mainChunked [] false false [] (fun _ => false) (fun _ _ => true) []).exitCode
        = 1
    ∧ mainLineFirstRead false [[97]] (fun _ => false) [104, 10]
        = some (LineStep.dispatchL [104, 10] [] [])
    ∧ ¬ mainLineFirstRead false [[97]] (fun _ => false) [104, 10] = none := by
  decide

/-- C3 amended: in non-terminal mode, when at least one output path is
supplied but zero sinks open successfully, the process issues no reads,
writes to no sink, and exits with status 1; when zero paths are supplied it
also issues no reads and writes to no sink, but exits with status 0 after
printing usage; and in terminal mode with paths supplied the process never
checks the sink count — it enters the line loop and reads standard input
even when zero sinks opened. -/
theorem C3_no_sink_guard (usage : List Byte) (suppress : Bool)
    (args : List (List Byte)) (opens : List Byte → Bool)
    (oracle : Nat → Nat → Bool) (chunks : List (List Byte)) :
    (args ≠ [] → buildSinks args opens = [] →
      mainChunked usage false suppress args opens oracle chunks
        = ⟨1, ⟨[], printlnArgs args, 0⟩, 0⟩)
    ∧ (mainChunked usage false suppress [] opens oracle chunks
        = ⟨0, ⟨[], printlnArgs [] ++ usage, 0⟩, 0⟩)
    ∧ (∀ input, args ≠ [] →
        mainLineFirstRead false args opens input = some (lineIter input)) := by
  refine ⟨?_, ?_, ?_⟩
  · intro hne hbs
    have hlenA : ¬ args.length = 0 := by
      cases args with
      | nil => exact absurd rfl hne
      | cons _ _ => simp
    have hlen : (initSinks args opens).length = 0 := by
      rw [initSinks, hbs]; rfl
    rw [mainChunked]; simp [hlenA, hlen]
  · rw [mainChunked]; simp
  · intro input hne
    have hlenA : ¬ args.length = 0 := by
      cases args with
      | nil => exact absurd rfl hne
      | cons _ _ => simp
    simp [mainLineFirstRead, mainLineStart, hlenA]

/-- Witness for C3 amended: one path `a` whose open fails: in non-terminal
mode, exit status 1 with zero reads issued, no sinks, nothing on stdout but
the debug args line; in terminal mode, the line loop is entered and reads
input `h\n` despite the zero opened sinks. -/
theorem C3_no_sink_guard_witness :
    (mainChunked [] false false [[97]] (fun _ => false) (fun _ _ => true) [[1]]
      = ⟨1, ⟨[], [97, 114, 103, 115, 32, 91, 97, 93, 10], 0⟩, 0⟩)
    ∧ mainLineFirstRead false [[97]] (fun _ => false) [104, 10]
      = some (LineStep.dispatchL [104, 10] [] []) :=
  ⟨(C3_no_sink_guard [] false [[97]] (fun _ => false) (fun _ _ => true) [[1]]).1
      (by decide) (by decide),
   (C3_no_sink_guard [] false [[97]] (fun _ => false) (fun _ _ => true) [[1]]).2.2
      [104, 10] (by decide)⟩

/-- C4 fails on the code in line-oriented mode: when `ReadLine` reports EOF
the loop body does not break (the break at gotee.go:278-281 fires only for
non-EOF errors) — it prints `EOF` to standard output and still dispatches a
bare-newline chunk to every active sink, then issues another read. -/
theorem C4_line_mode_eof_keeps_dispatching :
    lineIter [] = LineStep.dispatchL [10] [69, 79, 70, 10] []
    ∧ ¬ lineIter [] = LineStep.halt := by
  decide

/-- Counterexample to C5 as stated: after a normal end-of-input run (one
sink on path `a`, one chunk `hi` read, then EOF) the sink is left with
`closed = false`: `close()` is never invoked on the normal path, since the
flush/close block at gotee.go:362-366 is commented out. -/
theorem C5_sink_not_closed_at_eof :
    (mainChunked [] false false [[97]] (fun _ => true) (fun _ _ => true)
      [[104, 105]]).state.sinks
      = [⟨[104, 105], [], true, false⟩]
    ∧ ¬ ((mainChunked [] false false [[97]] (fun _ => true) (fun _ _ => true)
        [[104, 105]]).state.sinks.all fun s => s.closed) = true := by
  decide

/-- C5 amended: on normal end-of-input the process returns from `main`
without invoking `close()` on any sink (and without a final Passthrough
flush); no sink data is lost, because every write flushes, so each sink
ends the run unclosed with an empty buffer. -/
theorem C5_flushed_but_unclosed (usage : List Byte) (suppress : Bool)
    (args : List (List Byte)) (opens : List Byte → Bool)
    (oracle : Nat → Nat → Bool) (chunks : List (List Byte)) :
    ((mainChunked usage false suppress args opens oracle chunks).state.sinks.all
      flushedNotClosed) = true := by
  rw [mainChunked]
  by_cases h1 : args.length = 0
  · simp [h1]
  · by_cases h2 : (initSinks args opens).length = 0
    · simp [h1, h2]
    · simp only [h1, h2, if_false, Bool.false_eq_true]
      exact chunkLoop_all chunks (!suppress) oracle _ (initSinks_all args opens)

/-- C6: fan-out of one chunk visits the sinks in insertion order (the write
events are the active indices in strictly increasing order); an active sink
whose write fails is deactivated, an active sink whose write succeeds —
before or after the failing one — still receives the chunk, inactive sinks
are skipped untouched; and after the failure the run goes on: sink k stays
inactive and unchanged through any further chunks while the loop still
consumes every remaining chunk. -/
theorem C6_write_failure_isolation
    (sinks : List fileWriter) (chunk : List Byte) (oracle : Nat → Bool)
    (k : Nat) (fwk : fileWriter)
    (hk : sinks[k]? = some fwk) (hact : fwk.active = true) (hfail : oracle k = false) :
    (dispatchChunk chunk oracle sinks)[k]? = some { fwk with active := false }
    ∧ (∀ (j : Nat) (fwj : fileWriter),
        sinks[j]? = some fwj → fwj.active = true → oracle j = true →
        (dispatchChunk chunk oracle sinks)[j]?
          = some { fwj with written := fwj.written ++ fwj.buf ++ chunk, buf := [] })
    ∧ (∀ (j : Nat) (fwj : fileWriter), sinks[j]? = some fwj → fwj.active = false →
        (dispatchChunk chunk oracle sinks)[j]? = some fwj)
    ∧ dispatchEvents chunk oracle sinks = activeIndicesAux 0 sinks
    ∧ (dispatchEvents chunk oracle sinks).Pairwise (· < ·)
    ∧ (∀ (pass : Bool) (oracle2 : Nat → Nat → Bool) (chunks : List (List Byte))
        (out : List Byte) (cnt : Nat),
        ((chunkLoop pass oracle2 chunks
            ⟨dispatchChunk chunk oracle sinks, out, cnt⟩).sinks)[k]?
          = some { fwk with active := false }
        ∧ (chunkLoop pass oracle2 chunks
            ⟨dispatchChunk chunk oracle sinks, out, cnt⟩).count
          = cnt + chunks.length) := by
  have hfst : (dispatchChunk chunk oracle sinks)[k]? = some { fwk with active := false } := by
    rw [dispatchChunk, dispatchAux_fst_getElem, hk]
    simp [hact, dispatchStep, fileWriter.write, hfail]
  refine ⟨hfst, ?_, ?_, ?_, ?_, ?_⟩
  · intro j fwj h1 h2 h3
    rw [dispatchChunk, dispatchAux_fst_getElem, h1]
    simp [h2, dispatchStep, fileWriter.write, h3]
  · intro j fwj h1 h2
    rw [dispatchChunk, dispatchAux_fst_getElem, h1]
    simp [h2]
  · rw [dispatchEvents, dispatchAux_snd]
  · rw [dispatchEvents, dispatchAux_snd]
    exact activeIndicesAux_pairwise sinks 0
  · intro pass oracle2 chunks out cnt
    exact ⟨chunkLoop_sink_inactive k { fwk with active := false } rfl chunks pass oracle2
        ⟨dispatchChunk chunk oracle sinks, out, cnt⟩ hfst,
      chunkLoop_count pass oracle2 chunks ⟨dispatchChunk chunk oracle sinks, out, cnt⟩⟩

/-- Witness for C6: two active sinks, the first one's write fails on chunk
`[7]`: the first is deactivated with its content untouched, the second
still receives the chunk. -/
theorem C6_write_failure_isolation_witness :
    (dispatchChunk [7] (fun i => i != 0)
        [⟨[], [], true, false⟩, ⟨[9], [], true, false⟩])[0]?
      = some ⟨[], [], false, false⟩
    ∧ (dispatchChunk [7] (fun i => i != 0)
        [⟨[], [], true, false⟩, ⟨[9], [], true, false⟩])[1]?
      = some ⟨[9, 7], [], true, false⟩ := by
  have h := C6_write_failure_isolation
    [⟨[], [], true, false⟩, ⟨[9], [], true, false⟩] [7] (fun i => i != 0)
    0 ⟨[], [], true, false⟩ rfl rfl rfl
  exact ⟨h.1, h.2.1 1 ⟨[9], [], true, false⟩ rfl rfl rfl⟩

/-- C7: with a pre-existing file holding `X` and run input `Y`, append mode
leaves `X ++ Y` on disk and truncate mode leaves exactly `Y`; a missing
path gets a new file created in either mode, ending with exactly `Y`. -/
theorem C7_append_law (X Y : List Byte) (b : Bool) :
    writeOut (newFileWriterFile (some X) true) Y = X ++ Y
    ∧ writeOut (newFileWriterFile (some X) false) Y = Y
    ∧ (newFileWriterFile none b).created = true
    ∧ writeOut (newFileWriterFile none b) Y = Y := by
  refine ⟨rfl, ?_, rfl, ?_⟩ <;> simp [newFileWriterFile, writeOut]

/-- C8: whatever the process state when the interrupt notification is
delivered — however much input was dispatched — the handler flushes the
Passthrough writer completely, closes every sink in insertion order (each
flushed then marked closed with an empty buffer), and exits with status 0. -/
theorem C8_interrupt_cleanup (st : ProcState) :
    (interruptHandler st).2 = 0
    ∧ (interruptHandler st).1.outBuf = []
    ∧ (interruptHandler st).1.outDone = st.outDone ++ st.outBuf
    ∧ (interruptHandler st).1.sinks = st.sinks.map fileWriter.close
    ∧ ((interruptHandler st).1.sinks.all fun s => s.closed && s.buf.isEmpty) = true := by
  refine ⟨rfl, rfl, rfl, rfl, ?_⟩
  rw [interruptHandler]
  simp only [List.all_eq_true]
  intro x hx
  obtain ⟨y, _, rfl⟩ := List.mem_map.mp hx
  simp [fileWriter.close]

/-- Counterexample to C9 as stated: the path `a?` contains a glob
metacharacter (`?`), yet the sink-building loop does not reject it — the
code screens only for `*` (gotee.go:317) — and attempts (here, completes)
the open, creating a sink for it. -/
theorem C9_question_mark_not_rejected :
    [97, 63].any globMeta = true
    ∧ sinkLoopEvents (fun _ => true) [[97, 63]] = [SinkEvent.opened [97, 63]] := by
  decide

/-- C9 amended: paths containing the `*` character are rejected with a
diagnostic before any open is attempted and produce no sink; for every path
not containing `*` — even one containing another glob metacharacter such as
`?` or `[` — an open is attempted. -/
theorem C9_star_only_rejection (p : List Byte) (rest : List (List Byte))
    (opens : List Byte → Bool) :
    (containsStar p = true →
      sinkLoopEvents opens (p :: rest)
        = SinkEvent.globDiagnostic p :: sinkLoopEvents opens rest
      ∧ buildSinks (p :: rest) opens = buildSinks rest opens)
    ∧ (containsStar p = false →
      sinkLoopEvents opens (p :: rest)
        = (if opens p then SinkEvent.opened p else SinkEvent.openFailed p)
          :: sinkLoopEvents opens rest) := by
  constructor
  · intro h
    refine ⟨by simp [sinkLoopEvents, h], ?_⟩
    simp [buildSinks, sinkLoopEvents, h]
  · intro h
    simp [sinkLoopEvents, h]

/-- Witness for C9 amended: the path `*` is rejected with a diagnostic and
yields no sink. -/
theorem C9_star_only_rejection_witness :
    sinkLoopEvents (fun _ => true) [[42]] = [SinkEvent.globDiagnostic [42]]
    ∧ buildSinks [[42]] (fun _ => true) = [] :=
  (C9_star_only_rejection [42] [] (fun _ => true)).1 (by decide)

/-- C10: in line-oriented mode every dispatched chunk is the line returned
by `ReadLine` with exactly one newline byte appended; in particular a final
input line with no terminating newline is dispatched with a trailing
newline added — normalized, not preserved. -/
theorem C10_newline_appended (input l rest : List Byte) (t : Bool) :
    (readLine input = (ReadLineResult.ok l t, rest) →
      lineIter input = LineStep.dispatchL (l ++ [10]) [] rest)
    ∧ (input ≠ [] → (10 : Byte) ∉ input →
      lineIter input = LineStep.dispatchL (input ++ [10]) [] []) := by
  constructor
  · intro h
    unfold lineIter
    rw [h]
  · intro hne hnl
    cases input with
    | nil => exact absurd rfl hne
    | cons b r =>
      have hs := splitLine_no_nl (b :: r) hnl
      have hr : readLine (b :: r) = (ReadLineResult.ok (b :: r) false, []) := by
        simp only [readLine, hs]
      unfold lineIter
      rw [hr]

/-- Witness for C10: the unterminated final line `ab` is dispatched to the
sinks as `ab` plus one newline byte. -/
theorem C10_newline_appended_witness :
    lineIter [97, 98] = LineStep.dispatchL [97, 98, 10] [] [] :=
  (C10_newline_appended [97, 98] [97, 98] [] false).2 (by decide) (by decide)

